import Mathlib

/-!
Verification development for the `leetcode_bot` daemon (`src/main.rs`).

The Rust program is shallowly embedded below:

* `fetch_leetcode_daily_question` — the Content Fetcher: navigation of the
  parsed JSON response (`response["data"]["activeDailyCodingChallengeQuestion"]["link"]`),
  with the transport/deserialization outcome of `send().await?.json().await?`
  supplied as an `Except` value.
* `deliverLoop` / `send_daily_challenge` — the fan-out dispatcher: the `for`
  loop over the subscriber snapshot, where each `.await?` on `send_message`
  or `pin_chat_message` aborts the whole function.
* `duration_until_next_trigger` — the Trigger Clock arithmetic, with local
  time modelled at nanosecond precision (chrono's `NaiveTime`) and
  `Duration::num_seconds` as truncating division.
* `printInt` / `parseChatIds` / `serializeChatIds` — a concrete executable
  model of `serde_json::to_string` / `serde_json::from_str` for a
  `HashSet<ChatId>` (a JSON array of integers, canonical sorted order for the
  unspecified `HashSet` iteration order).
* `load_chat_ids` / `save_chat_ids` / `saveFileStates` — the Subscriber
  Store: `load` returns the empty set on a missing or unparseable file;
  `save` truncates the target file in place (`File::create`) and then writes,
  so the sequence of observable file states during a save is explicit.
* `send_daily_challenge_trace` / `start_command_trace` — event traces of the
  lock / sleep / network-call order in the dispatcher and in the `/start`
  branch of the message handler.
* `handle_message` — the command handler `match` on the message text
  (`"/start"`, `"/stop"`, anything else).
-/

/-! ### Content Fetcher (src/main.rs lines 19-52) -/

/-- A `serde_json::Value`, restricted to the shapes the fetcher inspects:
strings, objects, and everything else. -/
inductive Json where
  | str (s : String)
  | obj (fields : List (String × Json))
  | other
deriving Repr

/-- Field lookup in a JSON object's field list (`Value::get` /
`HashMap::get`). -/
def lookupField : List (String × Json) → String → Option Json
  | [], _ => none
  | (k, v) :: rest, key => if k = key then some v else lookupField rest key

/-- `Value::get` on a `Json` value: field access succeeds only on objects. -/
def Json.get (j : Json) (key : String) : Option Json :=
  match j with
  | .obj fields => lookupField fields key
  | _ => none

/-- `Value::as_str`. -/
def Json.asStr (j : Json) : Option String :=
  match j with
  | .str s => some s
  | _ => none

/-- `fetch_leetcode_daily_question` (lines 19-52).  The argument is the
combined outcome of `send().await?` and `.json::<HashMap<String,Value>>().await?`:
`Except.error` for a transport failure or a body that does not deserialize as
a JSON object, `Except.ok` for the deserialized top-level object.  The HTTP
status code is never inspected by the source.  The nested `if let` chain
returns `Ok(None)` whenever any field on the path is missing or the link is
not a string. -/
def fetch_leetcode_daily_question (resp : Except Unit (List (String × Json))) :
    Except Unit (Option String) :=
  match resp with
  | .error e => .error e
  | .ok response =>
    match lookupField response "data" with
    | some data =>
      match data.get "activeDailyCodingChallengeQuestion" with
      | some question =>
        match question.get "link" with
        | some link =>
          match link.asStr with
          | some linkStr => .ok (some ("https://leetcode.com" ++ linkStr))
          | none => .ok none
        | none => .ok none
      | none => .ok none
    | none => .ok none

/-! ### Fan-out dispatcher (src/main.rs lines 56-83) -/

/-- Outcome of the two transport calls for one recipient: `send_message`
fails, or it succeeds and `pin_chat_message` fails, or both succeed. -/
inductive DeliveryOutcome where
  | sendFail
  | pinFail
  | ok
deriving DecidableEq, Repr

/-- Result of one fan-out cycle: which chats received the message, which had
it pinned, and whether `send_daily_challenge` returned `Ok`. -/
structure CycleResult where
  sent : List ℤ
  pinned : List ℤ
  ok : Bool
deriving DecidableEq, Repr

/-- The `for &chat_id in chat_ids_guard.iter()` loop (lines 66-80).  The `?`
on `send_message(...).await` and on `pin_chat_message(...).await` returns the
error from `send_daily_challenge` immediately, so a failure stops the loop:
on `sendFail` the current chat gets nothing, on `pinFail` it got the send but
not the pin, and in both cases no later chat is processed. -/
def deliverLoop (outcome : ℤ → DeliveryOutcome) : List ℤ → CycleResult
  | [] => { sent := [], pinned := [], ok := true }
  | chatId :: rest =>
    match outcome chatId with
    | .sendFail => { sent := [], pinned := [], ok := false }
    | .pinFail => { sent := [chatId], pinned := [], ok := false }
    | .ok =>
      let r := deliverLoop outcome rest
      { sent := chatId :: r.sent, pinned := chatId :: r.pinned, ok := r.ok }

/-- `send_daily_challenge` (lines 56-83).  `fetch` is the result of
`fetch_leetcode_daily_question(&client).await`; the `?` on it propagates a
fetch error before any message text is composed, so on `Except.error` the
function returns the error with no text built and no chat contacted.
Otherwise the message is the `format!` of line 59-63 and the loop runs over
the snapshot.  The second component is the composed message text, if any. -/
def send_daily_challenge (fetch : Except Unit (Option String))
    (outcome : ℤ → DeliveryOutcome) (subs : List ℤ) :
    CycleResult × Option String :=
  match fetch with
  | .error _ => ({ sent := [], pinned := [], ok := false }, none)
  | .ok dailyQuestion =>
    (deliverLoop outcome subs,
     some ("Today's LeetCode Challenge:\n\nDaily: " ++
       dailyQuestion.getD "Not available"))

/-! ### Trigger Clock (src/main.rs lines 86-99) -/

/-- Nanoseconds per second: chrono's `NaiveTime` carries nanosecond
precision, while `TRIGGER_TIME` parsed with `%H:%M:%S` has zero
nanoseconds. -/
def nsPerSec : ℕ := 1000000000

/-- The current local time-of-day, as `Local::now().naive_local()` exposes
it: whole seconds since midnight plus a nanosecond remainder. -/
structure LocalNow where
  secOfDay : ℕ
  nano : ℕ
deriving DecidableEq, Repr

/-- The time-of-day in nanoseconds since midnight. -/
def nowNs (now : LocalNow) : ℕ := now.secOfDay * nsPerSec + now.nano

/-- `duration_until_next_trigger` (lines 86-99).  `trigger` is the target
time-of-day in whole seconds since midnight.  `now.time() < trigger_time`
compares at nanosecond precision; the chosen target instant is today at the
trigger time or tomorrow at the trigger time; `num_seconds()` of the signed
difference truncates toward zero, which for a nonnegative difference is
division by `nsPerSec`. -/
def duration_until_next_trigger (trigger : ℕ) (now : LocalNow) : ℕ :=
  let target :=
    if nowNs now < trigger * nsPerSec then trigger * nsPerSec
    else (trigger + 86400) * nsPerSec
  (target - nowNs now) / nsPerSec

/-! ### Serialization of the subscriber set

A concrete executable model of `serde_json::to_string` and
`serde_json::from_str` for `HashSet<ChatId>`: a JSON array of integers with
no whitespace, e.g. `[-3,1,42]`.  `ChatId` is a serde-transparent wrapper
around `i64`; machine-integer width never matters for the properties below,
so identities are `ℤ`.  The serializer emits the set in sorted order (one
admissible iteration order of the `HashSet`). -/

/-- The character for one decimal digit (only ever applied to `d < 10`). -/
def digitToChar : ℕ → Char
  | 0 => '0'
  | 1 => '1'
  | 2 => '2'
  | 3 => '3'
  | 4 => '4'
  | 5 => '5'
  | 6 => '6'
  | 7 => '7'
  | 8 => '8'
  | _ => '9'

/-- The decimal digit denoted by a character, if any. -/
def charToDigit (c : Char) : Option ℕ :=
  if c = '0' then some 0
  else if c = '1' then some 1
  else if c = '2' then some 2
  else if c = '3' then some 3
  else if c = '4' then some 4
  else if c = '5' then some 5
  else if c = '6' then some 6
  else if c = '7' then some 7
  else if c = '8' then some 8
  else if c = '9' then some 9
  else none

/-- Decimal rendering of a natural number. -/
def printNat (n : ℕ) : List Char :=
  if n = 0 then ['0'] else ((Nat.digits 10 n).reverse).map digitToChar

/-- Parse a run of decimal digit characters (at least one). -/
def parseDigits : List Char → Option (List ℕ)
  | [] => some []
  | c :: cs =>
    match charToDigit c, parseDigits cs with
    | some d, some ds => some (d :: ds)
    | _, _ => none

/-- Parse a nonempty all-digit string as a natural number. -/
def parseNat (cs : List Char) : Option ℕ :=
  match parseDigits cs with
  | some (d :: ds) => some (Nat.ofDigits 10 (d :: ds).reverse)
  | _ => none

/-- Decimal rendering of an integer (leading `-` when negative). -/
def printInt (i : ℤ) : List Char :=
  if i < 0 then '-' :: printNat i.natAbs else printNat i.natAbs

/-- Parse an optionally `-`-signed decimal integer. -/
def parseInt (cs : List Char) : Option ℤ :=
  match cs with
  | [] => none
  | c :: rest =>
    if c = '-' then
      match parseNat rest with
      | some n => some (-(n : ℤ))
      | none => none
    else
      match parseNat (c :: rest) with
      | some n => some ((n : ℤ))
      | none => none

/-- Join the rendered array elements with `,` separators. -/
def joinComma : List (List Char) → List Char
  | [] => []
  | [piece] => piece
  | piece :: rest => piece ++ ',' :: joinComma rest

/-- Split a character list at every `,`. -/
def splitOnComma : List Char → List (List Char)
  | [] => [[]]
  | c :: cs =>
    if c = ',' then [] :: splitOnComma cs
    else
      match splitOnComma cs with
      | [] => [[c]]
      | piece :: pieces => (c :: piece) :: pieces

/-- The serialized form of a list of identities: `[` elements `]`. -/
def serializeChatIdsChars (l : List ℤ) : List Char :=
  '[' :: (joinComma (l.map printInt) ++ [']'])

/-- `serde_json::to_string(&chat_ids)` for the set, in sorted iteration
order. -/
def serializeChatIds (s : Finset ℤ) : String :=
  ⟨serializeChatIdsChars (s.sort (· ≤ ·))⟩

/-- Parse the serialized form back into a set of identities; `none` models a
`serde_json::from_str` error. -/
def parseChatIdsChars : List Char → Option (Finset ℤ)
  | [] => none
  | c :: rest =>
    if c = '[' then
      match rest.reverse with
      | [] => none
      | c2 :: revInner =>
        if c2 = ']' then
          if revInner.reverse = [] then some ∅
          else (parseIntList (splitOnComma revInner.reverse)).map List.toFinset
        else none
    else none
where
  /-- Parse every element of the split; any failure fails the whole parse. -/
  parseIntList : List (List Char) → Option (List ℤ)
    | [] => some []
    | piece :: pieces =>
      match parseInt piece, parseIntList pieces with
      | some i, some l => some (i :: l)
      | _, _ => none

/-- `serde_json::from_str::<HashSet<ChatId>>(&data)` on a file's content. -/
def parseChatIds (data : String) : Option (Finset ℤ) :=
  parseChatIdsChars data.data

/-! ### Subscriber Store (src/main.rs lines 102-135) -/

/-- `load_chat_ids` (lines 102-112).  The file is `none` when
`fs::read_to_string` fails (missing file) and `some data` otherwise;
`serde_json::from_str(&data).unwrap_or_default()` turns any parse failure
into the empty set. -/
def load_chat_ids (file : Option String) : Finset ℤ :=
  match file with
  | none => ∅
  | some data => (parseChatIds data).getD ∅

/-- The data `save_chat_ids` (lines 115-135) writes on the successful path:
`serde_json::to_string(chat_ids)`. -/
def save_chat_ids (s : Finset ℤ) : String := serializeChatIds s

/-- How far the save got: `File::create` failed, `write_all` failed, or the
write completed (`sync_all` failing afterwards leaves the same visible
content as success). -/
inductive SaveOutcome where
  | createFail
  | writeFail
  | ok
deriving DecidableEq, Repr

/-- The sequence of file states observable by a reader while `save_chat_ids`
runs, in order.  `async_fs::File::create(file_path)` truncates the target
file in place, so after a successful create and before the `write_all`
completes the visible content is the empty string; there is no temporary
file and no rename. -/
def saveFileStates (oldFile : Option String) (s : Finset ℤ) (out : SaveOutcome) :
    List (Option String) :=
  match out with
  | .createFail => [oldFile]
  | .writeFail => [oldFile, some ""]
  | .ok => [oldFile, some "", some (save_chat_ids s)]

/-! ### Lock/suspension event traces (src/main.rs lines 56-83 and 194-226) -/

/-- The suspension-relevant events of the program, in source order:
acquiring/releasing the subscriber-set mutex, the jitter `sleep`, the
network calls (`send_message`, `pin_chat_message`, the fetch), and the
subscriber-file write inside `save_chat_ids`. -/
inductive Ev where
  | fetchCall
  | lock
  | unlock
  | jitterSleep
  | netSend
  | netPin
  | fileWrite
deriving DecidableEq, Repr

/-- The event trace of `send_daily_challenge` on the all-success path: the
fetch at line 57 precedes `chat_ids.lock().await` at line 65; the guard
lives to the end of the function, so every per-recipient `sleep`,
`send_message` and `pin_chat_message` happens with the lock held, and the
lock is released only after the loop. -/
def send_daily_challenge_trace (subs : List ℤ) : List Ev :=
  Ev.fetchCall :: Ev.lock ::
    ((subs.flatMap fun _ => [Ev.jitterSleep, Ev.netSend, Ev.netPin]) ++ [Ev.unlock])

/-- The event trace of the `"/start"` branch (lines 196-211): the guard
scope covers the in-memory insert and the awaited `save_chat_ids` file
write; the acknowledgment send happens after the scope ends, then the
immediate `send_daily_challenge` runs. -/
def start_command_trace (subs : List ℤ) : List Ev :=
  Ev.lock :: Ev.fileWrite :: Ev.unlock :: Ev.netSend ::
    send_daily_challenge_trace subs

/-- Whether the trace performs a suspension or I/O event (sleep, network
send/pin, file write) while the lock depth is positive. -/
def nonMemoryUnderLock (depth : ℕ) : List Ev → Bool
  | [] => false
  | e :: es =>
    match e with
    | .lock => nonMemoryUnderLock (depth + 1) es
    | .unlock => nonMemoryUnderLock (depth - 1) es
    | .fetchCall => nonMemoryUnderLock depth es
    | _ => (depth != 0) || nonMemoryUnderLock depth es

/-! ### Command Handler (src/main.rs lines 187-229) -/

/-- The `match text.as_str()` of lines 195-226, as a pure state
transformer.  Returns the new subscriber set, the data written to the
subscriber file (if any), and the reply texts sent back to the sender.  The
catch-all arm does nothing. -/
def handle_message (text : String) (chatId : ℤ) (s : Finset ℤ) :
    Finset ℤ × Option String × List String :=
  if text = "/start" then
    (insert chatId s, some (save_chat_ids (insert chatId s)),
     ["You will start receiving daily challenges."])
  else if text = "/stop" then
    (s.erase chatId, some (save_chat_ids (s.erase chatId)),
     ["You have stopped receiving daily challenges."])
  else (s, none, [])

/-- The snapshot order in which the fan-out loop visits the `HashSet`: some
fixed order of the members; modelled as sorted order. -/
def snapshot (s : Finset ℤ) : List ℤ := s.sort (· ≤ ·)

/-! ### Helper lemmas: decimal digits -/

theorem charToDigit_digitToChar {d : ℕ} (h : d < 10) :
    charToDigit (digitToChar d) = some d := by
  interval_cases d <;> decide

theorem digitToChar_ne_dash {d : ℕ} (h : d < 10) : digitToChar d ≠ '-' := by
  interval_cases d <;> decide

theorem digitToChar_ne_comma {d : ℕ} (h : d < 10) : digitToChar d ≠ ',' := by
  interval_cases d <;> decide

theorem parseDigits_map {l : List ℕ} (h : ∀ d ∈ l, d < 10) :
    parseDigits (l.map digitToChar) = some l := by
  induction l with
  | nil => rfl
  | cons d ds ih =>
    have hd : d < 10 := h d (List.mem_cons_self d ds)
    have hds : ∀ x ∈ ds, x < 10 := fun x hx => h x (List.mem_cons_of_mem d hx)
    simp [parseDigits, charToDigit_digitToChar hd, ih hds]

theorem parseNat_printNat (n : ℕ) : parseNat (printNat n) = some n := by
  by_cases hn : n = 0
  · subst hn; decide
  · have hdig : ∀ d ∈ (Nat.digits 10 n).reverse, d < 10 := by
      intro d hd
      exact Nat.digits_lt_base (by norm_num) (List.mem_reverse.mp hd)
    have hpd : parseDigits (printNat n) = some (Nat.digits 10 n).reverse := by
      rw [printNat, if_neg hn]
      exact parseDigits_map hdig
    have hne : (Nat.digits 10 n).reverse ≠ [] := by
      simp [Nat.digits_ne_nil_iff_ne_zero.mpr hn]
    obtain ⟨d, ds, hds⟩ := List.exists_cons_of_ne_nil hne
    rw [parseNat, hpd, hds]
    have : (d :: ds).reverse = Nat.digits 10 n := by
      rw [← hds, List.reverse_reverse]
    simp [this, Nat.ofDigits_digits]

theorem printNat_ne_nil (n : ℕ) : printNat n ≠ [] := by
  rw [printNat]
  split
  · simp
  · simp [Nat.digits_ne_nil_iff_ne_zero.mpr (by assumption)]

theorem mem_printNat {n : ℕ} {c : Char} (hc : c ∈ printNat n) :
    c ≠ '-' ∧ c ≠ ',' := by
  rw [printNat] at hc
  split at hc
  · simp at hc
    subst hc
    exact ⟨by decide, by decide⟩
  · obtain ⟨d, hd, rfl⟩ := List.mem_map.mp hc
    have hd10 : d < 10 :=
      Nat.digits_lt_base (by norm_num) (List.mem_reverse.mp hd)
    exact ⟨digitToChar_ne_dash hd10, digitToChar_ne_comma hd10⟩

theorem parseInt_printInt (i : ℤ) : parseInt (printInt i) = some i := by
  by_cases hi : i < 0
  · rw [printInt, if_pos hi]
    simp only [parseInt, if_true, eq_self_iff_true, parseNat_printNat,
      Option.some.injEq]
    omega
  · rw [printInt, if_neg hi]
    obtain ⟨c, cs, hcons⟩ := List.exists_cons_of_ne_nil (printNat_ne_nil i.natAbs)
    have hcmem : c ∈ printNat i.natAbs := by rw [hcons]; exact List.mem_cons_self c cs
    have hdash : c ≠ '-' := (mem_printNat hcmem).1
    rw [hcons]
    simp only [parseInt, if_neg hdash]
    rw [← hcons, parseNat_printNat]
    simp only [Option.some.injEq]
    omega

theorem printInt_ne_nil (i : ℤ) : printInt i ≠ [] := by
  rw [printInt]
  split
  · simp
  · exact printNat_ne_nil _

theorem mem_printInt_ne_comma {i : ℤ} {c : Char} (hc : c ∈ printInt i) :
    c ≠ ',' := by
  rw [printInt] at hc
  split at hc
  · rcases List.mem_cons.mp hc with rfl | hc2
    · decide
    · exact (mem_printNat hc2).2
  · exact (mem_printNat hc).2

/-! ### Helper lemmas: array splitting and the save/load roundtrip -/

theorem splitOnComma_ne_nil (cs : List Char) : splitOnComma cs ≠ [] := by
  induction cs with
  | nil => simp [splitOnComma]
  | cons c cs ih =>
    by_cases hc : c = ','
    · simp [splitOnComma, hc]
    · rw [splitOnComma, if_neg hc]
      cases hsp : splitOnComma cs with
      | nil => exact absurd hsp ih
      | cons piece pieces => simp

theorem splitOnComma_append {p : List Char} (hp : ∀ c ∈ p, c ≠ ',')
    (rest : List Char) {h : List Char} {t : List (List Char)}
    (hr : splitOnComma rest = h :: t) :
    splitOnComma (p ++ rest) = (p ++ h) :: t := by
  induction p with
  | nil => simpa using hr
  | cons c p' ih =>
    have hc : c ≠ ',' := hp c (List.mem_cons_self c p')
    have hp' : ∀ x ∈ p', x ≠ ',' := fun x hx => hp x (List.mem_cons_of_mem c hx)
    rw [List.cons_append, splitOnComma, if_neg hc, ih hp']
    simp

theorem joinComma_ne_nil {p : List Char} (hp : p ≠ []) (ps : List (List Char)) :
    joinComma (p :: ps) ≠ [] := by
  cases ps with
  | nil => simpa [joinComma] using hp
  | cons q ps' => simp [joinComma]

theorem splitOnComma_joinComma :
    ∀ pieces : List (List Char), pieces ≠ [] →
      (∀ p ∈ pieces, ∀ c ∈ p, c ≠ ',') →
      splitOnComma (joinComma pieces) = pieces
  | [], hne, _ => absurd rfl hne
  | [p], _, hp => by
    have hp0 : ∀ c ∈ p, c ≠ ',' := hp p (List.mem_cons_self p [])
    have h0 : splitOnComma ([] : List Char) = [] :: [] := rfl
    have := splitOnComma_append hp0 [] h0
    simpa [joinComma] using this
  | p :: q :: ps, _, hp => by
    have hp0 : ∀ c ∈ p, c ≠ ',' := hp p (List.mem_cons_self p (q :: ps))
    have hrest : ∀ r ∈ q :: ps, ∀ c ∈ r, c ≠ ',' :=
      fun r hr => hp r (List.mem_cons_of_mem p hr)
    have ihr : splitOnComma (joinComma (q :: ps)) = q :: ps :=
      splitOnComma_joinComma (q :: ps) (by simp) hrest
    have hcomma : splitOnComma (',' :: joinComma (q :: ps)) =
        [] :: (q :: ps) := by
      rw [splitOnComma, if_pos rfl, ihr]
    have := splitOnComma_append hp0 (',' :: joinComma (q :: ps)) hcomma
    simpa [joinComma] using this

theorem parseIntList_map (l : List ℤ) :
    parseChatIdsChars.parseIntList (l.map printInt) = some l := by
  induction l with
  | nil => rfl
  | cons i l ih =>
    simp [parseChatIdsChars.parseIntList, parseInt_printInt, ih]

theorem parse_serialize_chars (l : List ℤ) :
    parseChatIdsChars (serializeChatIdsChars l) = some l.toFinset := by
  cases l with
  | nil => decide
  | cons x xs =>
    have hjne : joinComma ((x :: xs).map printInt) ≠ [] := by
      rw [List.map_cons]
      exact joinComma_ne_nil (printInt_ne_nil x) _
    have hsplit : splitOnComma (joinComma ((x :: xs).map printInt)) =
        (x :: xs).map printInt := by
      refine splitOnComma_joinComma _ (by simp) ?_
      intro p hpmem c hc
      obtain ⟨i, _, rfl⟩ := List.mem_map.mp hpmem
      exact mem_printInt_ne_comma hc
    rw [serializeChatIdsChars, parseChatIdsChars, if_pos rfl]
    have hrev : (joinComma ((x :: xs).map printInt) ++ [']']).reverse =
        ']' :: (joinComma ((x :: xs).map printInt)).reverse := by
      simp
    rw [hrev]
    simp only [List.reverse_reverse, if_true, eq_self_iff_true, if_neg hjne]
    rw [hsplit, parseIntList_map]
    rfl

theorem parse_serialize (s : Finset ℤ) :
    parseChatIds (serializeChatIds s) = some s := by
  show parseChatIdsChars (serializeChatIdsChars (s.sort (· ≤ ·))) = some s
  rw [parse_serialize_chars, Finset.sort_toFinset]

/-! ### Helper lemmas: the delivery loop -/

theorem deliverLoop_all_ok (outcome : ℤ → DeliveryOutcome) (subs : List ℤ)
    (h : ∀ x ∈ subs, outcome x = DeliveryOutcome.ok) :
    deliverLoop outcome subs = { sent := subs, pinned := subs, ok := true } := by
  induction subs with
  | nil => rfl
  | cons c rest ih =>
    have hc := h c (List.mem_cons_self c rest)
    have hrest : ∀ x ∈ rest, outcome x = DeliveryOutcome.ok :=
      fun x hx => h x (List.mem_cons_of_mem c hx)
    simp [deliverLoop, hc, ih hrest]

/-! ### Claim theorems -/

/-- C1, counterexample: with the snapshot `[1, 2, 3]` and a send failure for
recipient 2, the fan-out loop delivers only to recipient 1; recipient 3,
which comes after the failing recipient, is never delivered to, so a
delivery failure does abort delivery to the remaining recipients. -/
theorem c1_counterexample :
    (send_daily_challenge (Except.ok (some "https://leetcode.com/problems/x/"))
        (fun c => if c = 2 then DeliveryOutcome.sendFail else DeliveryOutcome.ok)
        [1, 2, 3]).1.sent = [1] ∧
    (3 : ℤ) ∉
      (send_daily_challenge (Except.ok (some "https://leetcode.com/problems/x/"))
        (fun c => if c = 2 then DeliveryOutcome.sendFail else DeliveryOutcome.ok)
        [1, 2, 3]).1.sent := by
  decide

/-- C1, amended: when every recipient before `c` succeeds and delivery to
`c` fails (send or pin), the cycle returns an error and delivery stops at
`c`: the recipients sent to are exactly the prefix before `c` (plus `c`
itself when only the pin failed), the pins are exactly the prefix, and no
recipient after `c` is contacted.  Failure isolation is per-cycle, not
per-recipient. -/
theorem c1_fanout_abort (outcome : ℤ → DeliveryOutcome) (l1 l2 : List ℤ)
    (c : ℤ) (h1 : ∀ x ∈ l1, outcome x = DeliveryOutcome.ok)
    (hc : outcome c ≠ DeliveryOutcome.ok) :
    (deliverLoop outcome (l1 ++ c :: l2)).ok = false ∧
    (deliverLoop outcome (l1 ++ c :: l2)).sent =
      l1 ++ (if outcome c = DeliveryOutcome.pinFail then [c] else []) ∧
    (deliverLoop outcome (l1 ++ c :: l2)).pinned = l1 := by
  induction l1 with
  | nil =>
    cases houtc : outcome c with
    | sendFail => simp [deliverLoop, houtc]
    | pinFail => simp [deliverLoop, houtc]
    | ok => exact absurd houtc hc
  | cons x l1 ih =>
    have hx : outcome x = DeliveryOutcome.ok := h1 x (List.mem_cons_self x l1)
    have h1' : ∀ y ∈ l1, outcome y = DeliveryOutcome.ok :=
      fun y hy => h1 y (List.mem_cons_of_mem x hy)
    obtain ⟨ho, hs, hp⟩ := ih h1'
    refine ⟨?_, ?_, ?_⟩ <;> simp [deliverLoop, hx, ho, hs, hp]

/-- C1, witness for the amended theorem at the concrete 3-recipient
snapshot with a send failure for recipient 2. -/
theorem c1_fanout_abort_witness :
    (deliverLoop
        (fun x => if x = 2 then DeliveryOutcome.sendFail else DeliveryOutcome.ok)
        ([1] ++ 2 :: [3])).ok = false ∧
    (deliverLoop
        (fun x => if x = 2 then DeliveryOutcome.sendFail else DeliveryOutcome.ok)
        ([1] ++ 2 :: [3])).sent =
      [1] ++ (if (fun x => if x = 2 then DeliveryOutcome.sendFail
          else DeliveryOutcome.ok) 2 = DeliveryOutcome.pinFail then [2] else []) ∧
    (deliverLoop
        (fun x => if x = 2 then DeliveryOutcome.sendFail else DeliveryOutcome.ok)
        ([1] ++ 2 :: [3])).pinned = [1] :=
  c1_fanout_abort
    (fun x => if x = 2 then DeliveryOutcome.sendFail else DeliveryOutcome.ok)
    [1] [3] 2 (by decide) (by decide)

/-- C2, counterexample: when the fetch itself errors, `send_daily_challenge`
returns the error immediately: no message text is composed and none of the
three subscribers receives anything, so a Content Fetcher error suppresses
the whole cycle instead of producing a "nothing available" message. -/
theorem c2_counterexample :
    send_daily_challenge (Except.error ()) (fun _ => DeliveryOutcome.ok)
        [1, 2, 3] =
      ({ sent := [], pinned := [], ok := false }, none) := rfl

/-- C2, amended: a fetch *error* aborts the cycle before any message is
composed (nobody is contacted, the error is returned to the caller, which
only logs it); only a fetch that succeeds with *no link found* produces the
"Not available" message that is then sent to the snapshot. -/
theorem c2_fetch_error_aborts (outcome : ℤ → DeliveryOutcome)
    (subs : List ℤ) :
    send_daily_challenge (Except.error ()) outcome subs =
      ({ sent := [], pinned := [], ok := false }, none) ∧
    (send_daily_challenge (Except.ok none) outcome subs).2 =
      some "Today's LeetCode Challenge:\n\nDaily: Not available" := by
  exact ⟨rfl, rfl⟩

/-- C3, counterexample: during a save of `{1, 2}` over a file that held
`[1]`, the truncated intermediate state (empty file) is observable; a load
of that state yields `∅`, which is neither the old set `{1}` nor the new
set `{1, 2}` — so the save is not all-or-nothing for a concurrent reader. -/
theorem c3_counterexample :
    some "" ∈ saveFileStates (some "[1]") ({1, 2} : Finset ℤ) SaveOutcome.ok ∧
    load_chat_ids (some "") = (∅ : Finset ℤ) ∧
    load_chat_ids (some "[1]") = ({1} : Finset ℤ) ∧
    load_chat_ids (some (save_chat_ids ({1, 2} : Finset ℤ))) =
      ({1, 2} : Finset ℤ) ∧
    (∅ : Finset ℤ) ≠ ({1} : Finset ℤ) ∧
    (∅ : Finset ℤ) ≠ ({1, 2} : Finset ℤ) := by
  refine ⟨?_, by decide, by decide, ?_, by decide, by decide⟩
  · show some "" ∈
      [some "[1]", some "", some (save_chat_ids ({1, 2} : Finset ℤ))]
    exact List.mem_cons_of_mem _ (List.mem_cons_self _ _)
  · show (parseChatIds (serializeChatIds ({1, 2} : Finset ℤ))).getD ∅ =
      ({1, 2} : Finset ℤ)
    rw [parse_serialize]
    rfl

/-- C3, amended: the save writes in place — `File::create` truncates the
target file, so the observable states of a successful save are the old
content, then the empty file, then the new serialization.  A load *after*
the save completes reads back exactly the saved set, but a reader
concurrent with the save can observe the truncated file, which loads as
`∅`. -/
theorem c3_save_not_atomic (oldFile : Option String) (s : Finset ℤ) :
    saveFileStates oldFile s SaveOutcome.ok =
      [oldFile, some "", some (serializeChatIds s)] ∧
    load_chat_ids (some (serializeChatIds s)) = s ∧
    load_chat_ids (some "") = (∅ : Finset ℤ) := by
  refine ⟨rfl, ?_, by decide⟩
  show (parseChatIds (serializeChatIds s)).getD ∅ = s
  rw [parse_serialize]
  rfl

/-- C5: the subscriber-store load is total and degrades to the empty set: a
missing file loads as `∅`, and a file whose content does not parse loads as
`∅` (the model of `unwrap_or_default()`); no input raises. -/
theorem c5_load_total (data : String) (hbad : parseChatIds data = none) :
    load_chat_ids none = (∅ : Finset ℤ) ∧
    load_chat_ids (some data) = (∅ : Finset ℤ) := by
  refine ⟨rfl, ?_⟩
  show (parseChatIds data).getD ∅ = ∅
  rw [hbad]
  rfl

/-- C5, witness: the concrete corrupt content `"oops"` loads as the empty
set. -/
theorem c5_load_total_witness :
    load_chat_ids none = (∅ : Finset ℤ) ∧
    load_chat_ids (some "oops") = (∅ : Finset ℤ) :=
  c5_load_total "oops" (by decide)

/-- C7: saving any subscriber set (the empty set included) and loading the
resulting file content yields a set equal to the original. -/
theorem c7_save_load_roundtrip (s : Finset ℤ) :
    load_chat_ids (some (save_chat_ids s)) = s := by
  show (parseChatIds (serializeChatIds s)).getD ∅ = s
  rw [parse_serialize]
  rfl

/-- C4, counterexample: at a trigger time of 00:00:00 with the local clock
exactly at 00:00:00.000000000, the computed wait is exactly 86400 seconds —
not strictly less than 24 hours as the claim requires. -/
theorem c4_counterexample :
    duration_until_next_trigger 0 ⟨0, 0⟩ = 86400 ∧
    ¬ duration_until_next_trigger 0 ⟨0, 0⟩ < 86400 := by
  decide

/-- C4, amended: the computed wait is at most 24 hours, and it equals
exactly 24 hours precisely when the current time-of-day coincides with the
trigger to the nanosecond.  The fire instant `now + wait` lands in the
half-open second ending at the target instant (today's trigger time if now
is before it, otherwise tomorrow's): `num_seconds()` truncation can place
the fire up to one second before the target, and the wait can be 0 (not
strictly in the future) when now is within the last second before the
trigger. -/
theorem c4_wait_bounds (trigger : ℕ) (now : LocalNow)
    (htrig : trigger < 86400) (hsec : now.secOfDay < 86400)
    (hnano : now.nano < nsPerSec) :
    duration_until_next_trigger trigger now ≤ 86400 ∧
    (duration_until_next_trigger trigger now = 86400 ↔
      now.secOfDay = trigger ∧ now.nano = 0) ∧
    nowNs now + duration_until_next_trigger trigger now * nsPerSec ≤
      (if nowNs now < trigger * nsPerSec then trigger * nsPerSec
        else (trigger + 86400) * nsPerSec) ∧
    (if nowNs now < trigger * nsPerSec then trigger * nsPerSec
      else (trigger + 86400) * nsPerSec) <
      nowNs now + duration_until_next_trigger trigger now * nsPerSec +
        nsPerSec := by
  obtain ⟨sec, nano⟩ := now
  simp only [duration_until_next_trigger, nowNs, nsPerSec] at *
  by_cases hb : sec * 1000000000 + nano < trigger * 1000000000
  · simp only [if_pos hb]
    omega
  · simp only [if_neg hb]
    omega

/-- C4, witness for the amended theorem at trigger 01:00:00 and local time
exactly midnight. -/
theorem c4_wait_bounds_witness :
    duration_until_next_trigger 3600 ⟨0, 0⟩ ≤ 86400 ∧
    (duration_until_next_trigger 3600 ⟨0, 0⟩ = 86400 ↔
      (⟨0, 0⟩ : LocalNow).secOfDay = 3600 ∧ (⟨0, 0⟩ : LocalNow).nano = 0) ∧
    nowNs ⟨0, 0⟩ + duration_until_next_trigger 3600 ⟨0, 0⟩ * nsPerSec ≤
      (if nowNs ⟨0, 0⟩ < 3600 * nsPerSec then 3600 * nsPerSec
        else (3600 + 86400) * nsPerSec) ∧
    (if nowNs ⟨0, 0⟩ < 3600 * nsPerSec then 3600 * nsPerSec
      else (3600 + 86400) * nsPerSec) <
      nowNs ⟨0, 0⟩ + duration_until_next_trigger 3600 ⟨0, 0⟩ * nsPerSec +
        nsPerSec :=
  c4_wait_bounds 3600 ⟨0, 0⟩ (by decide) (by decide) (by decide)

/-- C6, counterexample: a response body that deserializes as a JSON object
but is missing the expected top-level `data` field is *not* returned as a
`FetchError`: the fetch returns a link-less success, contradicting the
claim that a malformed body missing expected top-level fields yields an
error. -/
theorem c6_counterexample :
    fetch_leetcode_daily_question (Except.ok []) = Except.ok none := rfl

/-- C6, amended: the fetch returns an error exactly when the combined
transport/deserialization step does (transport failure or a body that does
not deserialize as a JSON object); the HTTP status is never inspected.  Any
deserialized body yields a success, and a body missing the `data` field (or
any deeper field on the path, the link included) yields a link-less
success, not an error. -/
theorem c6_fetch_error_cases (m : List (String × Json))
    (hm : lookupField m "data" = none) :
    fetch_leetcode_daily_question (Except.error ()) = Except.error () ∧
    fetch_leetcode_daily_question (Except.ok m) = Except.ok none ∧
    ∀ body : List (String × Json), ∃ o : Option String,
      fetch_leetcode_daily_question (Except.ok body) = Except.ok o := by
  refine ⟨rfl, ?_, ?_⟩
  · simp [fetch_leetcode_daily_question, hm]
  · intro body
    rcases hdata : lookupField body "data" with _ | data
    · exact ⟨none, by simp [fetch_leetcode_daily_question, hdata]⟩
    · rcases hq : data.get "activeDailyCodingChallengeQuestion" with _ | question
      · exact ⟨none, by simp [fetch_leetcode_daily_question, hdata, hq]⟩
      · rcases hl : question.get "link" with _ | link
        · exact ⟨none, by simp [fetch_leetcode_daily_question, hdata, hq, hl]⟩
        · rcases hstr : link.asStr with _ | linkStr
          · exact ⟨none,
              by simp [fetch_leetcode_daily_question, hdata, hq, hl, hstr]⟩
          · exact ⟨some ("https://leetcode.com" ++ linkStr),
              by simp [fetch_leetcode_daily_question, hdata, hq, hl, hstr]⟩

/-- C6, witness for the amended theorem at the concrete empty response
object. -/
theorem c6_fetch_error_cases_witness :
    fetch_leetcode_daily_question (Except.error ()) = Except.error () ∧
    fetch_leetcode_daily_question (Except.ok []) = Except.ok none :=
  ⟨(c6_fetch_error_cases [] rfl).1, (c6_fetch_error_cases [] rfl).2.1⟩

/-- C8: a `/start` command from any chat triggers a fan-out over the *whole*
updated subscriber set: under an all-successful transport, every member of
`insert chatId s` — the pre-existing subscribers included — is sent the
message and has it pinned by the immediate `send_daily_challenge` call. -/
theorem c8_subscribe_full_fanout (dailyQuestion : Option String)
    (outcome : ℤ → DeliveryOutcome)
    (hok : ∀ x, outcome x = DeliveryOutcome.ok) (chatId : ℤ) (s : Finset ℤ)
    (d : ℤ) (hd : d ∈ insert chatId s) :
    d ∈ (send_daily_challenge (Except.ok dailyQuestion) outcome
          (snapshot (handle_message "/start" chatId s).1)).1.sent ∧
    d ∈ (send_daily_challenge (Except.ok dailyQuestion) outcome
          (snapshot (handle_message "/start" chatId s).1)).1.pinned := by
  have hstate : (handle_message "/start" chatId s).1 = insert chatId s := rfl
  rw [hstate]
  show d ∈ (deliverLoop outcome (snapshot (insert chatId s))).sent ∧
    d ∈ (deliverLoop outcome (snapshot (insert chatId s))).pinned
  rw [deliverLoop_all_ok outcome _ (fun x _ => hok x)]
  have hmem : d ∈ snapshot (insert chatId s) := by
    simp [snapshot, Finset.mem_sort, hd]
  exact ⟨hmem, hmem⟩

/-- C8, witness: chat 5 subscribing to the empty set is itself delivered to
and pinned by the immediate fan-out. -/
theorem c8_subscribe_full_fanout_witness :
    (5 : ℤ) ∈ (send_daily_challenge
        (Except.ok (some "https://leetcode.com/problems/x/"))
        (fun _ => DeliveryOutcome.ok)
        (snapshot (handle_message "/start" 5 ∅).1)).1.sent ∧
    (5 : ℤ) ∈ (send_daily_challenge
        (Except.ok (some "https://leetcode.com/problems/x/"))
        (fun _ => DeliveryOutcome.ok)
        (snapshot (handle_message "/start" 5 ∅).1)).1.pinned :=
  c8_subscribe_full_fanout (some "https://leetcode.com/problems/x/")
    (fun _ => DeliveryOutcome.ok) (fun _ => rfl) 5 ∅ 5 (by decide)

/-- C9, counterexample: with a single subscriber the fan-out trace performs
the jitter sleep and both network calls strictly between acquiring and
releasing the subscriber-set lock, so the lock *is* held across network
calls and delivery-pacing sleeps. -/
theorem c9_counterexample :
    nonMemoryUnderLock 0 (send_daily_challenge_trace [1]) = true := by
  decide

/-- C9, amended: for every nonempty snapshot, the dispatcher holds the lock
across the whole delivery loop — jitter sleeps and send/pin network calls
included — releasing it only after the last recipient; and the `/start`
handler additionally holds the lock across the subscriber-file write.  Only
the fetch happens outside the lock. -/
theorem c9_lock_held_across_delivery (subs : List ℤ) (hne : subs ≠ []) :
    nonMemoryUnderLock 0 (send_daily_challenge_trace subs) = true ∧
    nonMemoryUnderLock 0 (start_command_trace subs) = true := by
  obtain ⟨c, rest, rfl⟩ := List.exists_cons_of_ne_nil hne
  exact ⟨rfl, rfl⟩

/-- C9, witness for the amended theorem with the one-subscriber snapshot. -/
theorem c9_lock_held_across_delivery_witness :
    nonMemoryUnderLock 0 (send_daily_challenge_trace [7]) = true ∧
    nonMemoryUnderLock 0 (start_command_trace [7]) = true :=
  c9_lock_held_across_delivery [7] (by decide)

/-- C10: an inbound message whose text is anything other than exactly
`/start` or `/stop` — including a message with no text at all, whose text
defaults to the empty string — leaves the subscriber set unchanged, writes
nothing to the file, and sends no reply. -/
theorem c10_unrecognized_noop (text : Option String) (chatId : ℤ)
    (s : Finset ℤ) (h1 : text.getD "" ≠ "/start")
    (h2 : text.getD "" ≠ "/stop") :
    handle_message (text.getD "") chatId s = (s, none, []) := by
  rw [handle_message, if_neg h1, if_neg h2]

/-- C10, witness: a message carrying no text at all is silently ignored. -/
theorem c10_unrecognized_noop_witness :
    handle_message ((none : Option String).getD "") 0 ({1, 2} : Finset ℤ) =
      (({1, 2} : Finset ℤ), none, []) :=
  c10_unrecognized_noop none 0 {1, 2} (by decide) (by decide)
